import Mathlib

/-!
Verification of the AWS Bedrock Claude pipeline
(`examples/pipelines/providers/aws_bedrock_claude_pipeline.py`).

The development shallowly embeds the two pieces of the module with actual
logic: the streaming event transducer `stream_response`, and the request
path `pipe` (message/image processing, payload construction, the extended
thinking configuration, and the error boundaries), together with the
model-listing fallback of `get_models`.
-/

namespace BedrockPipeline

/-! Stream transducer data model.

A provider stream chunk is a dictionary.  The code inspects the keys
`contentBlockStop`, and `contentBlockDelta` (with an inner `delta` dict
whose recognised fields are `reasoningContent`, itself a dict with an
optional `text`, and `text`).  Presence or absence of each field is
modelled with `Option`; `contentBlockDelta = some d` models a chunk where
both `"contentBlockDelta" in chunk` and `"delta" in chunk["contentBlockDelta"]`
hold (when either key is absent the branch falls through, exactly as for
`none` here). -/

structure Delta where
  /-- Field `reasoningContent`: `some t` when the key is present, where
  `t` is the optional inner `text` field of the reasoning payload. -/
  reasoningContent : Option (Option String)
  /-- Field `text` of the delta. -/
  text : Option String
deriving DecidableEq

structure Chunk where
  /-- Whether the key `contentBlockStop` is present in the chunk. -/
  contentBlockStop : Bool
  contentBlockDelta : Option Delta
deriving DecidableEq

/-- Output fragments of the transducer, tagged by their origin so that
marker occurrences are unambiguous even when a payload string happens to
coincide with a marker.  `render` erases the tags to the literal strings
the generator yields. -/
inductive Frag
  | openMarker
  | closeMarker
  | reasoningText (s : String)
  | plainText (s : String)
deriving DecidableEq

def openMarkerStr : String := "<think>"

def closeMarkerStr : String := "\n </think> \n\n"

def Frag.render : Frag → String
  | .openMarker => openMarkerStr
  | .closeMarker => closeMarkerStr
  | .reasoningText s => s
  | .plainText s => s

/-- One step of the loop body of `Pipeline.stream_response`, mapping the
current `in_resasoning_context` flag and one chunk to the next flag and
the fragments yielded for that chunk, in order. -/
def stepChunk (inCtx : Bool) (c : Chunk) : Bool × List Frag :=
  if inCtx && c.contentBlockStop then
    (false, [Frag.closeMarker])
  else
    match c.contentBlockDelta with
    | some d =>
      match d.reasoningContent with
      | some rc =>
        (true, (if inCtx then [] else [Frag.openMarker])
                ++ (match rc with
                    | some t => [Frag.reasoningText t]
                    | none => []))
      | none =>
        match d.text with
        | some t => (inCtx, [Frag.plainText t])
        | none => (inCtx, [])
    | none => (inCtx, [])

/-- Iterating `stepChunk` over the event list, collecting all yielded
fragments; the flag starts at `false` in `stream_response`. -/
def processChunks : Bool → List Chunk → Bool × List Frag
  | b, [] => (b, [])
  | b, c :: rest =>
    let s := stepChunk b c
    let r := processChunks s.1 rest
    (r.1, s.2 ++ r.2)

/-- The string fragments yielded by the generator body of
`Pipeline.stream_response` for a fully materialised event list. -/
def stream_response (chunks : List Chunk) : List String :=
  ((processChunks false chunks).2).map Frag.render

/-- Convenience constructor: a reasoning delta chunk with optional payload. -/
def reasoningChunk (t : Option String) : Chunk :=
  ⟨false, some ⟨some t, none⟩⟩

/-- Convenience constructor: a plain text delta chunk. -/
def textChunk (t : String) : Chunk :=
  ⟨false, some ⟨none, some t⟩⟩

/-- Convenience constructor: a bare `contentBlockStop` chunk. -/
def stopChunk : Chunk :=
  ⟨true, none⟩

def isOpenFrag : Frag → Bool
  | .openMarker => true
  | _ => false

def countOpen (l : List Frag) : Nat := l.countP isOpenFrag

/-- Marker discipline automaton: scanning a fragment list with a
currently-open flag, an opening marker may occur only while closed and a
closing marker only while open. -/
def markerOk : Bool → List Frag → Bool
  | _, [] => true
  | b, Frag.openMarker :: rest => !b && markerOk true rest
  | b, Frag.closeMarker :: rest => b && markerOk false rest
  | b, _ :: rest => markerOk b rest

/-- Final open/closed state after scanning a fragment list. -/
def markerEnd : Bool → List Frag → Bool
  | b, [] => b
  | _, Frag.openMarker :: rest => markerEnd true rest
  | _, Frag.closeMarker :: rest => markerEnd false rest
  | b, _ :: rest => markerEnd b rest

theorem processChunks_cons (b : Bool) (c : Chunk) (rest : List Chunk) :
    processChunks b (c :: rest)
      = ((processChunks (stepChunk b c).1 rest).1,
         (stepChunk b c).2 ++ (processChunks (stepChunk b c).1 rest).2) := rfl

theorem markerOk_append (xs ys : List Frag) : ∀ b : Bool,
    markerOk b (xs ++ ys) = (markerOk b xs && markerOk (markerEnd b xs) ys) := by
  induction xs with
  | nil => intro b; simp [markerOk, markerEnd]
  | cons x xs ih =>
    intro b
    cases x <;> cases b <;> simp [markerOk, markerEnd, ih]

theorem markerEnd_append (xs ys : List Frag) : ∀ b : Bool,
    markerEnd b (xs ++ ys) = markerEnd (markerEnd b xs) ys := by
  induction xs with
  | nil => intro b; simp [markerEnd]
  | cons x xs ih => intro b; cases x <;> simp [markerEnd, ih]

theorem stepChunk_markerOk (b : Bool) (c : Chunk) :
    markerOk b (stepChunk b c).2 = true
    ∧ markerEnd b (stepChunk b c).2 = (stepChunk b c).1 := by
  rcases c with ⟨stop, d⟩
  rcases d with _ | ⟨rc, tx⟩
  · cases b <;> cases stop <;> simp [stepChunk, markerOk, markerEnd]
  · rcases rc with _ | (_ | t) <;> rcases tx with _ | t' <;>
      cases b <;> cases stop <;> simp [stepChunk, markerOk, markerEnd]

theorem processChunks_markerOk (chunks : List Chunk) : ∀ b : Bool,
    markerOk b (processChunks b chunks).2 = true
    ∧ markerEnd b (processChunks b chunks).2 = (processChunks b chunks).1 := by
  induction chunks with
  | nil => intro b; simp [processChunks, markerOk, markerEnd]
  | cons c rest ih =>
    intro b
    have hs := stepChunk_markerOk b c
    have hr := ih (stepChunk b c).1
    constructor
    · rw [processChunks_cons]
      simp only [markerOk_append, hs.1, hs.2, hr.1, Bool.true_and]
    · rw [processChunks_cons]
      simp only [markerEnd_append, hs.2, hr.2, processChunks_cons]

/-! Transducer helper lemmas for the claims. -/

/-- Whether the chunk is a content-block delta carrying `reasoningContent`. -/
def Chunk.hasReasoning (c : Chunk) : Bool :=
  match c.contentBlockDelta with
  | some d => d.reasoningContent.isSome
  | none => false

/-- The `text` payload of a content-block delta, when present. -/
def Chunk.textPayload (c : Chunk) : Option String :=
  match c.contentBlockDelta with
  | some d => d.text
  | none => none

theorem processChunks_run_inside (run : List (Option String)) (rest : List Chunk) :
    processChunks true (run.map reasoningChunk ++ stopChunk :: rest)
      = ((processChunks false rest).1,
         (run.filterMap id).map Frag.reasoningText
           ++ Frag.closeMarker :: (processChunks false rest).2) := by
  induction run with
  | nil => simp [processChunks_cons, stepChunk, stopChunk]
  | cons t run ih =>
    cases t <;> simp [processChunks_cons, stepChunk, reasoningChunk, ih]

theorem stepChunk_no_reasoning (c : Chunk) (h : c.hasReasoning = false) :
    stepChunk false c
      = (false, (match c.textPayload with
                 | some t => [Frag.plainText t]
                 | none => [])) := by
  rcases c with ⟨stop, d⟩
  rcases d with _ | ⟨rc, tx⟩
  · rfl
  · rcases rc with _ | rc'
    · cases tx <;> rfl
    · simp [Chunk.hasReasoning] at h

/-! Claims about the stream transducer. -/

/-- C2: a contiguous run of one or more reasoning deltas followed
immediately by a `contentBlockStop` yields exactly the opening marker,
then each present reasoning payload in arrival order, then the closing
marker, with the opening marker emitted once for the run; in particular
the input `[reasoning "a", reasoning "b", BlockStop, text "c"]` yields
the fragments `["<think>", "a", "b", "\n </think> \n\n", "c"]`. -/
theorem c2_reasoning_run (run : List (Option String)) (rest : List Chunk)
    (h : run ≠ []) :
    processChunks false (run.map reasoningChunk ++ stopChunk :: rest)
      = ((processChunks false rest).1,
         Frag.openMarker :: (run.filterMap id).map Frag.reasoningText
           ++ Frag.closeMarker :: (processChunks false rest).2)
    ∧ stream_response
        [reasoningChunk (some "a"), reasoningChunk (some "b"), stopChunk, textChunk "c"]
      = ["<think>", "a", "b", "\n </think> \n\n", "c"] := by
  constructor
  · match run with
    | t :: run' =>
      cases t <;>
        simp [processChunks_cons, stepChunk, reasoningChunk, processChunks_run_inside]
  · rfl

/-- Witness for C2 at the concrete run `["a"]` continued by a text chunk. -/
theorem c2_witness :
    ([some "a"] : List (Option String)) ≠ []
    ∧ (processChunks false ([some "a"].map reasoningChunk ++ stopChunk :: [textChunk "c"])
        = ((processChunks false [textChunk "c"]).1,
           Frag.openMarker
             :: (([some "a"] : List (Option String)).filterMap id).map Frag.reasoningText
             ++ Frag.closeMarker :: (processChunks false [textChunk "c"]).2)
       ∧ stream_response
           [reasoningChunk (some "a"), reasoningChunk (some "b"), stopChunk, textChunk "c"]
         = ["<think>", "a", "b", "\n </think> \n\n", "c"]) :=
  ⟨by simp, c2_reasoning_run [some "a"] [textChunk "c"] (by simp)⟩

/-- C3: a `contentBlockStop` processed while the in-reasoning-region flag
is set emits exactly the closing marker and clears the flag; and since the
state is the single boolean `in_resasoning_context`, no second region can
be opened while one is open — no step taken with the flag set ever emits
an opening marker. -/
theorem c3_blockstop_closes (c : Chunk) (h : c.contentBlockStop = true) :
    stepChunk true c = (false, [Frag.closeMarker])
    ∧ ∀ c2 : Chunk, Frag.openMarker ∉ (stepChunk true c2).2 := by
  constructor
  · simp [stepChunk, h]
  · intro c2
    rcases c2 with ⟨stop, d⟩
    rcases d with _ | ⟨rc, tx⟩
    · cases stop <;> simp [stepChunk]
    · rcases rc with _ | (_ | t) <;> rcases tx with _ | t' <;>
        cases stop <;> simp [stepChunk]

/-- Witness for C3 at the bare stop chunk. -/
theorem c3_witness :
    stopChunk.contentBlockStop = true
    ∧ (stepChunk true stopChunk = (false, [Frag.closeMarker])
       ∧ ∀ c2 : Chunk, Frag.openMarker ∉ (stepChunk true c2).2) :=
  ⟨rfl, c3_blockstop_closes stopChunk rfl⟩

/-- C4: for an event sequence containing no reasoning deltas, the output
is exactly the text-delta payloads in arrival order — no opening or
closing marker fragment is ever produced, and the rendered output is the
list of payloads themselves (hence their concatenation in order). -/
theorem c4_no_reasoning (chunks : List Chunk)
    (h : chunks.all (fun c => ! c.hasReasoning) = true) :
    processChunks false chunks
      = (false, (chunks.filterMap Chunk.textPayload).map Frag.plainText)
    ∧ stream_response chunks = chunks.filterMap Chunk.textPayload := by
  have main : processChunks false chunks
      = (false, (chunks.filterMap Chunk.textPayload).map Frag.plainText) := by
    induction chunks with
    | nil => rfl
    | cons c rest ih =>
      simp only [List.all_cons, Bool.and_eq_true, Bool.not_eq_true'] at h
      rw [processChunks_cons, stepChunk_no_reasoning c h.1,
          ih (by simpa using h.2)]
      cases hc : c.textPayload <;> simp [List.filterMap_cons, hc]
  refine ⟨main, ?_⟩
  simp [stream_response, main, List.map_map, Function.comp_def, Frag.render]

/-- Witness for C4 at a text chunk, a malformed chunk and a block stop. -/
theorem c4_witness :
    ([textChunk "x", Chunk.mk false none, stopChunk].all (fun c => ! c.hasReasoning) = true)
    ∧ (processChunks false [textChunk "x", Chunk.mk false none, stopChunk]
        = (false, (([textChunk "x", Chunk.mk false none, stopChunk].filterMap
            Chunk.textPayload)).map Frag.plainText)
       ∧ stream_response [textChunk "x", Chunk.mk false none, stopChunk]
        = [textChunk "x", Chunk.mk false none, stopChunk].filterMap Chunk.textPayload) :=
  ⟨rfl, c4_no_reasoning [textChunk "x", Chunk.mk false none, stopChunk] rfl⟩

/-- C5 counterexample: the claim demands that every emitted opening marker
be followed by exactly one later closing marker and that no plain
text-delta payload be emitted between the markers.  Both fail on the
code: a stream ending while inside a reasoning region leaves the opening
marker unclosed, and a text delta arriving before the `contentBlockStop`
is emitted between the markers. -/
theorem c5_counterexample :
    processChunks false [reasoningChunk (some "a")]
      = (true, [Frag.openMarker, Frag.reasoningText "a"])
    ∧ Frag.closeMarker ∉ [Frag.openMarker, Frag.reasoningText "a"]
    ∧ processChunks false [reasoningChunk (some "a"), textChunk "b", stopChunk]
      = (false, [Frag.openMarker, Frag.reasoningText "a",
                 Frag.plainText "b", Frag.closeMarker]) := by
  refine ⟨rfl, ?_, rfl⟩
  simp

/-- C5 as amended: marker discipline.  Scanning any output of the
transducer, an opening marker occurs only while no region is open and a
closing marker only while one is open (so markers alternate, the opening
marker is emitted exactly once per contiguous reasoning run and regions
never nest), and the final scan state equals the transducer's final flag
(so the last opening marker stays unclosed exactly when the stream ends
inside a reasoning region; text deltas arriving during a run are emitted
between the markers). -/
theorem c5_amended_marker_discipline (chunks : List Chunk) :
    markerOk false (processChunks false chunks).2 = true
    ∧ markerEnd false (processChunks false chunks).2 = (processChunks false chunks).1 :=
  processChunks_markerOk chunks false

/-- C8: events with an unrecognised shape or a missing payload field are
handled totally (the per-event step `stepChunk` is a total function by
construction) and leave the flag at what the recognised part dictates:
a delta with neither `reasoningContent` nor `text` and a chunk with no
recognised key change nothing, and a reasoning delta missing its inner
`text` still performs only the region-opening bookkeeping. -/
theorem c8_malformed_events (b : Bool) (t : Option String) :
    stepChunk b ⟨false, some ⟨none, none⟩⟩ = (b, [])
    ∧ stepChunk b ⟨false, none⟩ = (b, [])
    ∧ stepChunk b ⟨false, some ⟨some none, t⟩⟩
        = (true, if b then [] else [Frag.openMarker]) := by
  cases b <;> exact ⟨rfl, rfl, rfl⟩

/-- C9: processing the same reasoning-delta event twice in immediate
succession emits at most one opening marker, whatever the starting flag
and whatever optional fields the event carries. -/
theorem c9_no_double_open (b stop : Bool) (rc t : Option String) :
    countOpen (processChunks b
      [⟨stop, some ⟨some rc, t⟩⟩, ⟨stop, some ⟨some rc, t⟩⟩]).2 ≤ 1 := by
  rcases rc with _ | s <;> rcases t with _ | t' <;> cases b <;> cases stop <;>
    simp [processChunks, stepChunk, countOpen, List.countP_cons, isOpenFrag]

/-! Request path data model (`Pipeline.pipe` and its helpers). -/

/-- Numeric value of a nonempty digit string, `none` on any non-digit
character (modelling the `ValueError` of Python `int`). -/
def digitsVal (ds : List Char) : Option Nat :=
  if ds.isEmpty then none
  else ds.foldl
    (fun acc c =>
      match acc with
      | some a => if c.isDigit then some (a * 10 + (c.toNat - 48)) else none
      | none => none)
    (some 0)

/-- Models Python `int(s)` on a string: an optional sign followed by
digits; `none` models the raised `ValueError`. -/
def pyInt (s : String) : Option Int :=
  match s.toList with
  | '-' :: ds => (digitsVal ds).map (fun n => -(n : Int))
  | '+' :: ds => (digitsVal ds).map (fun n => (n : Int))
  | ds => (digitsVal ds).map (fun n => (n : Int))

/-- Character-list version of Python `startswith`. -/
def listStartsWith : List Char → List Char → Bool
  | [], _ => true
  | _ :: _, [] => false
  | a :: as, b :: bs => a == b && listStartsWith as bs

/-- Character-list version of the Python substring test `pat in s`. -/
def listContainsSub (pat : List Char) : List Char → Bool
  | [] => listStartsWith pat []
  | c :: rest => listStartsWith pat (c :: rest) || listContainsSub pat rest

/-- Models the Python substring test `pat in hay` on strings. -/
def strContains (hay pat : String) : Bool :=
  listContainsSub pat.toList hay.toList

/-- The literal list returned by `get_thinking_supported_models`. -/
def get_thinking_supported_models : List String :=
  ["claude-3-7", "claude-sonnet-4", "claude-opus-4"]

/-- The module-level constant `REASONING_EFFORT_BUDGET_TOKEN_MAP`; the
`"none"` entry maps to Python `None`, modelled by `none`. -/
def REASONING_EFFORT_BUDGET_TOKEN_MAP : List (String × Option Int) :=
  [("none", none), ("low", some 1024), ("medium", some 4096),
   ("high", some 16384), ("max", some 32768)]

/-- The module-level constant `MAX_COMBINED_TOKENS` (Claude 3.7 limit). -/
def MAX_COMBINED_TOKENS : Int := 64000

/-- Dictionary access on the budget map, combining
`REASONING_EFFORT_BUDGET_TOKEN_MAP.get(reasoning_effort)` with the
membership test `reasoning_effort in ...keys()`: `some v` when the key is
present with dict value `v` (itself `none` for the `"none"` entry) and
`none` when absent — including when `reasoning_effort` is Python `None`,
which is never a key. -/
def effortMapEntry : Option String → Option (Option Int)
  | none => none
  | some s =>
    (REASONING_EFFORT_BUDGET_TOKEN_MAP.find? (fun p => p.1 == s)).map Prod.snd

/-- Budget-token resolution in `Pipeline.pipe`: look the reasoning effort
up in the budget map; when the looked-up value is falsy and the effort is
a value outside the map's keys and not `None`, fall back to Python
`int(reasoning_effort)`, a failed conversion leaving the budget `None`. -/
def resolveBudget (reasoning_effort : Option String) : Option Int :=
  let fromMap := (effortMapEntry reasoning_effort).join
  let falsy :=
    match fromMap with
    | none => true
    | some v => v == 0
  if falsy && reasoning_effort.isSome && (effortMapEntry reasoning_effort).isNone then
    match reasoning_effort with
    | some s => pyInt s
    | none => none
  else fromMap

/-- An entry of a message's `content` list. Items whose `type` is neither
`"text"` nor `"image_url"` are skipped by the loop; they are modelled by
`other`. -/
inductive ContentItem
  | text (s : String)
  | image_url (url : String)
  | other
deriving DecidableEq

/-- A message's `content` value: either a list of typed items or a plain
value (the non-list branch, which also covers an absent key via the
default `""`). -/
inductive Content
  | parts (items : List ContentItem)
  | plain (s : String)
deriving DecidableEq

structure Message where
  role : String
  content : Content
deriving DecidableEq

/-- A processed content block of the outgoing payload. -/
inductive PContent
  | text (s : String)
  | image (url : String)
deriving DecidableEq

structure PMessage where
  role : String
  content : List PContent
deriving DecidableEq

/-- Models `Pipeline.process_image`.  Fetching and decoding the image
bytes (HTTP get or base64 decode) is an external effect with no bearing
on any claim; the processed block is modelled as a tag carrying the
original reference, so that invocations are counted exactly. -/
def process_image (url : String) : PContent :=
  PContent.image url

/-- The message of the `ValueError` raised at the 21st image. -/
def imageLimitError : String := "Maximum of 20 images per API call exceeded"

/-- The inner loop of `Pipeline.pipe` over one message's `content` list,
threading the running `image_count`.  An error carries the exception
message and the number of `process_image` invocations made up to the
raise; an `ok` result pairs the processed blocks with the updated
count. -/
def processItems : Nat → List ContentItem → Except (String × Nat) (List PContent × Nat)
  | count, [] => .ok ([], count)
  | count, ContentItem.text s :: rest =>
    match processItems count rest with
    | .ok (pc, c') => .ok (PContent.text s :: pc, c')
    | .error e => .error e
  | count, ContentItem.image_url u :: rest =>
    if count ≥ 20 then .error (imageLimitError, count)
    else
      match processItems (count + 1) rest with
      | .ok (pc, c') => .ok (process_image u :: pc, c')
      | .error e => .error e
  | count, ContentItem.other :: rest => processItems count rest

/-- The outer message loop of `Pipeline.pipe`, producing
`processed_messages` and threading `image_count` across messages. -/
def processMessages : Nat → List Message → Except (String × Nat) (List PMessage × Nat)
  | count, [] => .ok ([], count)
  | count, m :: rest =>
    match m.content with
    | Content.parts items =>
      match processItems count items with
      | .error e => .error e
      | .ok (pc, c') =>
        match processMessages c' rest with
        | .ok (pms, c'') => .ok (⟨m.role, pc⟩ :: pms, c'')
        | .error e => .error e
    | Content.plain s =>
      match processMessages count rest with
      | .ok (pms, c'') => .ok (⟨m.role, [PContent.text s]⟩ :: pms, c'')
      | .error e => .error e

def itemIsImage : ContentItem → Bool
  | ContentItem.image_url _ => true
  | _ => false

def Content.imageCount : Content → Nat
  | Content.parts items => items.countP itemIsImage
  | Content.plain _ => 0

/-- Number of inline images across a message history. -/
def totalImages (msgs : List Message) : Nat :=
  (msgs.map (fun m => m.content.imageCount)).sum

/-- The `inferenceConfig` dict of the outgoing payload.  Temperature and
top-p are numeric literals that are only ever assigned, never computed
with, so they are modelled exactly as rationals; `topP = none` models the
key having been deleted. -/
structure InferenceConfig where
  temperature : ℚ
  topP : Option ℚ
  maxTokens : Int
  stopSequences : List String
deriving DecidableEq

/-- The `additionalModelRequestFields` dict: `top_k = none` models the
deleted key; `thinking = some b` models the inserted
`{"type": "enabled", "budget_tokens": b}` dict (its `"type"` field is the
constant `"enabled"`). -/
structure AdditionalModelRequestFields where
  top_k : Option Int
  thinking : Option Int
deriving DecidableEq

/-- The request payload handed to the Bedrock runtime client. -/
structure Payload where
  modelId : String
  messages : List PMessage
  system : List String
  inferenceConfig : InferenceConfig
  additionalModelRequestFields : AdditionalModelRequestFields
deriving DecidableEq

/-- The request options dict `body`, restricted to the keys the code
reads; each `Option` field is `none` when the key is absent so that the
`body.get` defaults apply.  `stream` holds `body.get("stream", False)`;
`reasoning_effort` holds `body.get("reasoning_effort", "none")`, where
`none` models Python `None` and an absent key arrives as `some "none"`. -/
structure Body where
  temperature : Option ℚ
  top_p : Option ℚ
  max_tokens : Option Int
  stop : Option (List String)
  top_k : Option Int
  stream : Bool
  reasoning_effort : Option String
deriving DecidableEq

/-- The default system prompt used when no system message is present. -/
def defaultSystemPrompt : String := "you are an intelligent ai assistant"

/-- The payload literal built in `Pipeline.pipe` before the streaming
branch. -/
def basePayload (model_id : String) (pm : List PMessage)
    (system_message : Option String) (body : Body) : Payload :=
  { modelId := model_id
    messages := pm
    system := [system_message.getD defaultSystemPrompt]
    inferenceConfig :=
      { temperature := body.temperature.getD (0.5 : ℚ)
        topP := some (body.top_p.getD (0.9 : ℚ))
        maxTokens := body.max_tokens.getD 4096
        stopSequences := body.stop.getD [] }
    additionalModelRequestFields :=
      { top_k := some (body.top_k.getD 200)
        thinking := none } }

/-- The error string built when the combined token check fails. -/
def combinedError (budget_tokens max_tokens combined_tokens : Int) : String :=
  "Error: Combined tokens (budget_tokens " ++ toString budget_tokens
    ++ " + max_tokens " ++ toString max_tokens ++ " = " ++ toString combined_tokens
    ++ ") exceeds the maximum limit of " ++ toString MAX_COMBINED_TOKENS

/-- Result of `Pipeline.pipe`: an error string, a generator object (the
streaming branch returns `self.stream_response(model_id, payload)`
without executing any of the generator body), or a completion string. -/
inductive PipeResult
  | error (msg : String)
  | streamGen (payload : Payload)
  | completion (text : String)
deriving DecidableEq

def PipeResult.isStreamGen : PipeResult → Bool
  | .streamGen _ => true
  | _ => false

def PipeResult.payload? : PipeResult → Option Payload
  | .streamGen p => some p
  | _ => none

/-- Models `Pipeline.pipe`.  `pop_system_message` (imported from
`utils.pipelines.main`, outside this module) has already split the system
message off the history; its two results arrive as `system_message` and
`messages`.  The Bedrock runtime client's non-streaming call chain
(`converse` plus the response-field extraction of `get_completion`, both
executed inside the `try` of `pipe`) is abstracted by `converse`, whose
raising is modelled by `Except.error`.  The surrounding `try`/`except`
turns any raised exception `e` into the returned string `f"Error: {e}"`. -/
def pipe (converse : Payload → Except String String) (model_id : String)
    (system_message : Option String) (messages : List Message) (body : Body) :
    PipeResult :=
  match processMessages 0 messages with
  | .error (msg, _) => .error ("Error: " ++ msg)
  | .ok (pm, _) =>
    let payload := basePayload model_id pm system_message body
    if body.stream then
      let supports_thinking :=
        get_thinking_supported_models.any (fun m => strContains model_id m)
      match resolveBudget body.reasoning_effort with
      | some budget_tokens =>
        if supports_thinking && budget_tokens != 0 then
          -- `payload.get("max_tokens", 4096)`: the payload dict never has a
          -- top-level "max_tokens" key (the request's max tokens sit under
          -- inferenceConfig.maxTokens), so the lookup always yields the
          -- default 4096.
          let max_tokens : Int := 4096
          let combined_tokens := budget_tokens + max_tokens
          if combined_tokens > MAX_COMBINED_TOKENS then
            .error (combinedError budget_tokens max_tokens combined_tokens)
          else
            .streamGen
              { payload with
                inferenceConfig :=
                  { payload.inferenceConfig with
                    maxTokens := combined_tokens
                    temperature := 1
                    topP := none }
                additionalModelRequestFields :=
                  { top_k := none
                    thinking := some budget_tokens } }
        else .streamGen payload
      | none => .streamGen payload
    else
      match converse payload with
      | .ok text => .completion text
      | .error e => .error ("Error: " ++ e)

/-- Running the generator returned by the streaming branch: the generator
body first calls `converse_stream` and then iterates the event stream,
with no `try`/`except` anywhere inside `stream_response`, so an exception
from the client (modelled by `Except.error`) propagates to the consumer
instead of becoming a string result. -/
def stream_response_run (client : Except String (List Chunk)) :
    Except String (List String) :=
  match client with
  | .error e => .error e
  | .ok chunks => .ok (stream_response chunks)

/-- A model-catalog entry as returned by `get_models`. -/
structure ModelEntry where
  id : String
  name : String
deriving DecidableEq

/-- The placeholder entry returned when listing fails (the typo
`permissoin` is the source's). -/
def modelsErrorEntry : ModelEntry :=
  ⟨"error", "Could not fetch models from Bedrock, please check permissoin."⟩

/-- A foundation-model summary from the listing response, restricted to
the fields the code reads. -/
structure FoundationModelSummary where
  modelId : String
  modelName : String
  modelArn : String
  inferenceTypesSupported : List String
deriving DecidableEq

/-- Models `Pipeline.get_models`.  The catalog client call
`list_foundation_models` is abstracted by the `listing` argument (an
exception again modelled by `Except.error`), and `getInferenceProfileId`
by `profileOf`.  The `try`/`except` converts any raised exception into
the placeholder entry list. -/
def get_models (listing : Except String (List FoundationModelSummary))
    (profileOf : String → Option String) : List ModelEntry :=
  match listing with
  | .error _ => [modelsErrorEntry]
  | .ok ms =>
    ms.foldr
      (fun m acc =>
        if m.inferenceTypesSupported.contains "ON_DEMAND" then
          ⟨m.modelId, m.modelName⟩ :: acc
        else if m.inferenceTypesSupported.contains "INFERENCE_PROFILE" then
          match profileOf m.modelArn with
          | some pid => ⟨pid, m.modelName⟩ :: acc
          | none => acc
        else acc)
      []

def exceptIsOk : Except String (List String) → Bool
  | .ok _ => true
  | .error _ => false

/-! Image-limit lemmas for the request path. -/

theorem processItems_overflow (items : List ContentItem) : ∀ count : Nat,
    count ≤ 20 → 21 ≤ count + items.countP itemIsImage →
    processItems count items = .error (imageLimitError, 20) := by
  induction items with
  | nil =>
    intro count h1 h2
    simp only [List.countP_nil, Nat.add_zero] at h2
    omega
  | cons it rest ih =>
    intro count h1 h2
    cases it with
    | text s =>
      have hr := ih count h1
        (by simpa [List.countP_cons, itemIsImage] using h2)
      simp [processItems, hr]
    | image_url u =>
      by_cases hc : count ≥ 20
      · have hce : count = 20 := by omega
        simp [processItems, hc, hce]
      · have h2' : 21 ≤ (count + 1) + rest.countP itemIsImage := by
          simp [List.countP_cons, itemIsImage] at h2
          omega
        have hr := ih (count + 1) (by omega) h2'
        simp [processItems, hc, hr]
    | other =>
      have hr := ih count h1
        (by simpa [List.countP_cons, itemIsImage] using h2)
      simp [processItems, hr]

theorem processItems_ok (items : List ContentItem) : ∀ count : Nat,
    count + items.countP itemIsImage ≤ 20 →
    ∃ pc, processItems count items = .ok (pc, count + items.countP itemIsImage) := by
  induction items with
  | nil =>
    intro count h
    exact ⟨[], by simp [processItems]⟩
  | cons it rest ih =>
    intro count h
    cases it with
    | text s =>
      obtain ⟨pc, hpc⟩ := ih count
        (by simpa [List.countP_cons, itemIsImage] using h)
      refine ⟨PContent.text s :: pc, ?_⟩
      simp [processItems, hpc, List.countP_cons, itemIsImage]
    | image_url u =>
      have hlt : ¬ count ≥ 20 := by
        simp [List.countP_cons, itemIsImage] at h
        omega
      obtain ⟨pc, hpc⟩ := ih (count + 1)
        (by simp [List.countP_cons, itemIsImage] at h; omega)
      refine ⟨process_image u :: pc, ?_⟩
      have harith : count + 1 + rest.countP itemIsImage
          = count + (ContentItem.image_url u :: rest).countP itemIsImage := by
        simp [List.countP_cons, itemIsImage]
        omega
      simp only [processItems, hlt, if_false, hpc, harith]
    | other =>
      obtain ⟨pc, hpc⟩ := ih count
        (by simpa [List.countP_cons, itemIsImage] using h)
      refine ⟨pc, ?_⟩
      simp [processItems, hpc, List.countP_cons, itemIsImage]

theorem imageCount_parts (items : List ContentItem) :
    (Content.parts items).imageCount = items.countP itemIsImage := rfl

theorem imageCount_plain (s : String) :
    (Content.plain s).imageCount = 0 := rfl

theorem processMessages_overflow (msgs : List Message) : ∀ count : Nat,
    count ≤ 20 →
    21 ≤ count + (msgs.map (fun m => m.content.imageCount)).sum →
    processMessages count msgs = .error (imageLimitError, 20) := by
  induction msgs with
  | nil =>
    intro count h1 h2
    simp only [List.map_nil, List.sum_nil, Nat.add_zero] at h2
    omega
  | cons m rest ih =>
    intro count h1 h2
    simp only [List.map_cons, List.sum_cons] at h2
    rcases hm : m.content with items | s
    · by_cases hover : 21 ≤ count + items.countP itemIsImage
      · have hi := processItems_overflow items count h1 hover
        simp [processMessages, hm, hi]
      · push_neg at hover
        obtain ⟨pc, hpc⟩ := processItems_ok items count (by omega)
        have h2' : 21 ≤ (count + items.countP itemIsImage)
            + (rest.map (fun m => m.content.imageCount)).sum := by
          rw [hm, imageCount_parts] at h2
          omega
        have hr := ih (count + items.countP itemIsImage) (by omega) h2'
        simp [processMessages, hm, hpc, hr]
    · have h2' : 21 ≤ count + (rest.map (fun m => m.content.imageCount)).sum := by
        rw [hm, imageCount_plain] at h2
        omega
      have hr := ih count h1 h2'
      simp [processMessages, hm, hr]

/-! Claims about the request path. -/

/-- C7: a request whose message history carries 21 or more inline images
is rejected inside `pipe`'s own `try`/`except` — the `ValueError` raised
at the 21st image becomes the returned string `"Error: Maximum of 20
images per API call exceeded"`, whatever the model, body or client — and
`process_image` is invoked exactly 20 times (the invocation count carried
by the error). The result is an error string, so neither client call is
ever reached. -/
theorem c7_image_limit (converse : Payload → Except String String)
    (model_id : String) (system_message : Option String)
    (messages : List Message) (body : Body)
    (h : 21 ≤ totalImages messages) :
    processMessages 0 messages = .error (imageLimitError, 20)
    ∧ pipe converse model_id system_message messages body
        = .error ("Error: " ++ imageLimitError) := by
  have hp := processMessages_overflow messages 0 (by omega)
    (by simpa [totalImages] using h)
  exact ⟨hp, by simp [pipe, hp]⟩

/-- A history with a single message carrying 21 inline images. -/
def msgs21 : List Message :=
  [⟨"user", Content.parts (List.replicate 21 (ContentItem.image_url "u"))⟩]

def c7Body : Body :=
  { temperature := none, top_p := none, max_tokens := none, stop := none,
    top_k := none, stream := false, reasoning_effort := some "none" }

/-- Witness for C7 at a concrete 21-image request. -/
theorem c7_witness :
    21 ≤ totalImages msgs21
    ∧ (processMessages 0 msgs21 = .error (imageLimitError, 20)
       ∧ pipe (fun _ => .ok "") "claude-3-7" none msgs21 c7Body
           = .error ("Error: " ++ imageLimitError)) :=
  ⟨by decide, c7_image_limit (fun _ => .ok "") "claude-3-7" none msgs21 c7Body (by decide)⟩

/-- The failing input of C1 and C10: a streaming request on a
thinking-capable model with `reasoning_effort = "40000"` and
`max_tokens = 30000`. -/
def c1Body : Body :=
  { temperature := none, top_p := none, max_tokens := some 30000,
    stop := none, top_k := none, stream := true,
    reasoning_effort := some "40000" }

def oneTextMessage : List Message := [⟨"user", Content.plain "hi"⟩]

/-- C1 evaluated at the failing input: with budget 40000 and request
`max_tokens` 30000 the claim's sum 70000 exceeds the 64000 ceiling, yet
`pipe` does not return the error — the check reads
`payload.get("max_tokens", 4096)`, which always misses (the value sits
under `inferenceConfig.maxTokens`), computes 40000 + 4096 = 44096 ≤ 64000
and dispatches to the stream generator with `maxTokens = 44096`. -/
theorem c1_codebug_dispatches :
    pipe (fun _ => .ok "") "claude-3-7" none oneTextMessage c1Body
      = .streamGen
          { modelId := "claude-3-7"
            messages := [⟨"user", [PContent.text "hi"]⟩]
            system := [defaultSystemPrompt]
            inferenceConfig :=
              { temperature := 1, topP := none, maxTokens := 44096,
                stopSequences := [] }
            additionalModelRequestFields :=
              { top_k := none, thinking := some 40000 } }
    ∧ (40000 : Int) + 30000 > MAX_COMBINED_TOKENS := ⟨rfl, by decide⟩

/-- The failing input of C10 with every optional knob set, so that the
frame effect is fully visible. -/
def c10Body : Body :=
  { temperature := some (0.7 : ℚ), top_p := some (0.95 : ℚ),
    max_tokens := some 30000, stop := some ["STOP"], top_k := some 50,
    stream := true, reasoning_effort := some "low" }

/-- C10 evaluated at the failing input: with budget 1024 and request
`max_tokens` 30000 the thinking branch sets `temperature` to 1, deletes
`topP` and `top_k`, adds the thinking budget, and leaves `modelId`,
`messages`, `system` and `stopSequences` unchanged — but it replaces
`maxTokens` with 1024 + 4096 = 5120 (the `payload.get("max_tokens",
4096)` lookup always misses), not with the combined budget + request
max of 31024 the claim states. -/
theorem c10_codebug_maxTokens :
    pipe (fun _ => .ok "") "claude-3-7" (some "sys") oneTextMessage c10Body
      = .streamGen
          { modelId := "claude-3-7"
            messages := [⟨"user", [PContent.text "hi"]⟩]
            system := ["sys"]
            inferenceConfig :=
              { temperature := 1, topP := none, maxTokens := 5120,
                stopSequences := ["STOP"] }
            additionalModelRequestFields :=
              { top_k := none, thinking := some 1024 } }
    ∧ (5120 : Int) ≠ 1024 + 30000 := ⟨rfl, by decide⟩

/-- C6 counterexample: an exception raised by the client when the
returned stream generator is iterated (`converse_stream` runs inside the
generator body, after `pipe`'s `try`/`except` has already returned the
generator object) propagates to the consumer as an exception — the
consumer-visible outcome is not a string-formatted result. -/
theorem c6_counterexample :
    stream_response_run (Except.error "boom") = Except.error "boom"
    ∧ exceptIsOk (stream_response_run (Except.error "boom")) = false :=
  ⟨rfl, rfl⟩

/-- C6 as amended: client exceptions during model listing and during the
non-streaming completion call are caught at the call boundary and
converted to string-formatted results with no retry, but an exception
during streaming iteration is not caught — `stream_response` has no
handler and `pipe`'s `try`/`except` is no longer active when the
generator runs — so it propagates to the consumer. -/
theorem c6_amended_boundaries (e : String) (profileOf : String → Option String)
    (model_id : String) (system_message : Option String)
    (messages : List Message) (body : Body) (pm : List PMessage) (cnt : Nat)
    (hstream : body.stream = false)
    (hok : processMessages 0 messages = .ok (pm, cnt)) :
    get_models (Except.error e) profileOf = [modelsErrorEntry]
    ∧ pipe (fun _ => Except.error e) model_id system_message messages body
        = .error ("Error: " ++ e)
    ∧ stream_response_run (Except.error e) = Except.error e := by
  refine ⟨rfl, ?_, rfl⟩
  simp [pipe, hok, hstream]

def c6Body : Body :=
  { temperature := none, top_p := none, max_tokens := none, stop := none,
    top_k := none, stream := false, reasoning_effort := some "none" }

/-- Witness for C6 as amended, at a concrete failing client. -/
theorem c6_witness :
    c6Body.stream = false
    ∧ processMessages 0 oneTextMessage = .ok ([⟨"user", [PContent.text "hi"]⟩], 0)
    ∧ (get_models (Except.error "boom") (fun _ => none) = [modelsErrorEntry]
       ∧ pipe (fun _ => Except.error "boom") "m" none oneTextMessage c6Body
           = .error ("Error: " ++ "boom")
       ∧ stream_response_run (Except.error "boom") = Except.error "boom") :=
  ⟨rfl, rfl,
   c6_amended_boundaries "boom" (fun _ => none) "m" none oneTextMessage c6Body
     [⟨"user", [PContent.text "hi"]⟩] 0 rfl rfl⟩

end BedrockPipeline
